import Mathlib

/-!
Verification development for the misinfo-dataset normalization utility.

The repository has two source files:

* `index.py` — interactive per-source normalization.  The algorithmic core is
  `select_column` (column-default heuristics plus operator override) and the
  label-remapping block of `process_dataframe` (lines 169-217), which
  classifies the distinct values of the chosen label column into one of three
  regimes (textual true/fake vocabulary, numeric binary, arbitrary
  categorical) and rewrites the column accordingly.
* `scripts/combine.py` — `combine_processed`, which merges the per-source
  outputs into one corpus with provenance and prints a metrics report.

Cell values are modelled by `Val` (a string, an integer, or the missing value
NaN), covering the values pandas materializes from the CSV/SQLite loaders as
the normalization core sees them.  Python string operations used by the code
(`str 0 = "0"`, `.lower()`, `.strip()`, `.isdigit()`, `int(...)`) are embedded
at the character-list level so that every definition is executable and every
claim can be evaluated on concrete inputs.
-/

/-- A scalar cell value as the pandas-based code sees it: a text value, an
integer, or the missing value (NaN). -/
inductive Val where
  | vstr (s : String)
  | vint (n : Int)
  | vna
deriving DecidableEq, Repr

/-- Python `str(v)`: strings are unchanged, integers print in decimal, and
`str(float("nan"))` is `"nan"`. -/
def strCast : Val → String
  | .vstr s => s
  | .vint n => toString n
  | .vna => "nan"

/-- Python `s.lower()` restricted to basic latin letters, matching the ASCII
values the code compares against ("true", "fake", digits). -/
def pyLower (s : String) : String :=
  ⟨s.data.map Char.toLower⟩

/-- Character list with leading and trailing whitespace removed, the body of
Python `s.strip()`. -/
def stripChars (l : List Char) : List Char :=
  ((l.dropWhile Char.isWhitespace).reverse.dropWhile Char.isWhitespace).reverse

/-- Python `s.strip()`. -/
def pyStrip (s : String) : String :=
  ⟨stripChars s.data⟩

/-- Python `s.isdigit()` for ASCII strings: nonempty and all characters are
decimal digits. -/
def isdigitStr (s : String) : Bool :=
  !s.data.isEmpty && s.data.all Char.isDigit

/-- Decimal value of a digit string, reading left to right. -/
def digitsVal (l : List Char) : Nat :=
  l.foldl (fun acc c => acc * 10 + (c.toNat - 48)) 0

/-- Python `int(v)` as used at line 186 of `index.py` (`map(int, unique_vals)`),
total here but only ever applied to values that pass `isdigitStr ∘ strCast`. -/
def pyInt : Val → Int
  | .vstr s => digitsVal s.data
  | .vint n => n
  | .vna => 0

/-! ## Label normalization (`process_dataframe`, `index.py` lines 169-217)

The classification conditions in the source are computed from
`unique_vals = sorted(df[label_col].unique())`; they are `any`/`all`
quantifications over that collection, so they depend only on which values
occur in the column.  We therefore state them directly over the column list
(the sort is presentation order for the preview panel and the manual-remap
prompts and does not enter the mapping decision). -/

/-- The fixed textual vocabulary `default_mapping = {"true": 1, "fake": 0}`
of `index.py` line 169, as a partial map on lower-cased strings. -/
def defaultMapping (s : String) : Option Int :=
  if s = "true" then some 1 else if s = "fake" then some 0 else none

/-- Line 173: `any(lbl in lower_labels for lbl in default_mapping.keys())`,
where `lower_labels = [str(v).lower() for v in unique_vals]` — does some
column value string-cast and lower-case to a vocabulary key. -/
def textualCondB (col : List Val) : Bool :=
  col.any fun v => pyLower (strCast v) = "true" || pyLower (strCast v) = "fake"

/-- Lines 185-187: `all(str(v).isdigit() for v in unique_vals) and
set(map(int, unique_vals)).issubset(\x7b0, 1\x7d)`. -/
def numericCondB (col : List Val) : Bool :=
  (col.all fun v => isdigitStr (strCast v)) &&
    (col.all fun v => pyInt v = 0 || pyInt v = 1)

/-- The three label-classification regimes of `process_dataframe`. -/
inductive Regime where
  | textual
  | numericBinary
  | categorical
deriving DecidableEq, Repr

/-- The if/elif/else chain of lines 173, 185 and 204: textual vocabulary
first, then numeric binary, else categorical. -/
def classify (col : List Val) : Regime :=
  if textualCondB col then .textual
  else if numericCondB col then .numericBinary
  else .categorical

/-- Lines 177-183 applied to one cell:
`astype(str).str.lower().map(default_mapping).fillna(original)` — values whose
lower-cased string form is a vocabulary key are mapped through it, all other
values keep their original (pre-cast) value via the `fillna`. -/
def textualMap (v : Val) : Val :=
  match defaultMapping (pyLower (strCast v)) with
  | some n => .vint n
  | none => v

/-- Line 198: `lambda x: 0 if x == 1 else 1` applied to one cell.  Python
equality `x == 1` holds exactly for the integer 1 among `Val` values. -/
def flipMap (v : Val) : Val :=
  if v = .vint 1 then .vint 0 else .vint 1

/-- Lines 207-210 for a single prompted value: an empty answer leaves the
value unmapped; a digit-string answer becomes an integer target; any other
nonempty answer becomes a text target. -/
def manualTarget (ans : Val → String) (v : Val) : Option Val :=
  let s := ans v
  if s = "" then none
  else if isdigitStr s then some (.vint (digitsVal s.data))
  else some (.vstr s)

/-- Line 212, `df.replace(mapping)` applied to one cell: values with a
prompted nonempty target are replaced, all other values are kept. -/
def categoricalMap (ans : Val → String) (v : Val) : Val :=
  match manualTarget ans v with
  | some w => w
  | none => v

/-- The operator answers consumed by the label-remapping block: the
confirmation at line 196 (keep the `1 = true` convention), the confirmation at
line 205 (remap manually), and the per-value answers of line 208. -/
structure Answers where
  keepNumeric : Bool
  doManual : Bool
  manualAns : Val → String

/-- The cell-level rewrite chosen by the classification of the column. -/
def elemNormalize (col : List Val) (a : Answers) (v : Val) : Val :=
  match classify col with
  | .textual => textualMap v
  | .numericBinary => if a.keepNumeric then v else flipMap v
  | .categorical => if a.doManual then categoricalMap a.manualAns v else v

/-- The label-remapping block of `process_dataframe` on the whole label
column: one classification decision, then a single pointwise pass. -/
def normalizeColumn (col : List Val) (a : Answers) : List Val :=
  col.map (elemNormalize col a)

/-! ## Column selection (`select_column`, `index.py` lines 15-43)

The operator is shown the column list and asked for an index, with a computed
default.  The reply is fed to Python `int(...)` and then used as a Python list
index; a `ValueError` or `IndexError` falls back to the computed default and
prints the "Invalid choice — using default." notice.  `pyParseInt` embeds the
`int` grammar for ASCII input: surrounding whitespace, an optional single
sign, and digits optionally separated by single underscores.  `pyIndex`
embeds Python list indexing, including negative indices from the end. -/

/-- Tail of the Python integer digit part: digits optionally separated by
single underscores, no leading, trailing or doubled underscore. -/
def digitTail : List Char → Bool
  | [] => true
  | '_' :: c :: cs => c.isDigit && digitTail cs
  | c :: cs => c.isDigit && digitTail cs

/-- The Python integer digit part: nonempty, starts with a digit. -/
def digitPart : List Char → Bool
  | [] => false
  | c :: cs => c.isDigit && digitTail cs

/-- Python `int(s)` on ASCII input: `None` models `ValueError`. -/
def pyParseInt (s : String) : Option Int :=
  match stripChars s.data with
  | '+' :: rest =>
    if digitPart rest then some (digitsVal (rest.filter (· ≠ '_'))) else none
  | '-' :: rest =>
    if digitPart rest then some (-(digitsVal (rest.filter (· ≠ '_')) : Int))
    else none
  | rest =>
    if digitPart rest then some (digitsVal (rest.filter (· ≠ '_'))) else none

/-- Python list indexing `l[i]`: nonnegative indices below the length, or
negative indices counting from the end; `None` models `IndexError`. -/
def pyIndex (l : List String) (i : Int) : Option String :=
  if 0 ≤ i then l[i.toNat]?
  else if 0 ≤ i + l.length then l[(i + l.length).toNat]?
  else none

/-- Lines 26-32: the computed default index — for `claim`, the first column
literally named `claim` if present, else 0; for every other kind (the code
calls it with `label`), the first column named `label` if present, else 1 when
at least two columns exist, else 0. -/
def defaultIdx (cols : List String) (kind : String) : Nat :=
  if kind = "claim" then (cols.findIdx? (· = "claim")).getD 0
  else
    match cols.findIdx? (· = "label") with
    | some i => i
    | none => if cols.length > 1 then 1 else 0

/-- Lines 34-43: resolve the operator reply `choice`.  Returns the selected
column name and whether the invalid-choice fallback notice was printed. -/
def selectColumn (cols : List String) (kind : String) (choice : String) :
    String × Bool :=
  match pyParseInt choice with
  | some i =>
    match pyIndex cols i with
    | some c => (c, false)
    | none => (cols.getD (defaultIdx cols kind) "", true)
  | none => (cols.getD (defaultIdx cols kind) "", true)

/-! ## Corpus merge (`combine_processed`, `scripts/combine.py`)

A per-source file is either a parsed table or a read failure (the
`except` branch at line 60, which only logs).  The `files` list passed to
`combineProcessed` stands for the discovery-ordered `.csv` listing of the
input directory.  Column lookup by canonical name takes the first matching
column (pandas label lookup on the distinctly-named columns the per-source
writer produces). -/

/-- An in-memory table: header names and rows of cells. -/
structure Table where
  headers : List String
  rows : List (List Val)
deriving DecidableEq, Repr

/-- One row of the merged corpus: exactly the columns `claim`, `label` and
the provenance column `source` (line 50-51 of `combine.py`). -/
structure CRow where
  claim : String
  label : Val
  source : String
deriving DecidableEq, Repr

/-- One discovered per-source `.csv` file. -/
inductive FileInput where
  | ok (name : String) (t : Table)
  | readError (name : String)
deriving DecidableEq, Repr

/-- Line 37: `df.columns = [c.strip().lower() for c in df.columns]`. -/
def normHeaders (hs : List String) : List String :=
  hs.map fun c => pyLower (pyStrip c)

/-- Cell of a row at a column index (missing cells read as NaN). -/
def getCell (row : List Val) (i : Nat) : Val :=
  row.getD i .vna

/-- Line 55 applied to one cell: `astype(str).str.strip().str.lower()`. -/
def cleanClaim (v : Val) : String :=
  pyLower (pyStrip (strCast v))

/-- Lines 54-56 as a row-survival predicate on the claim cell: the
`dropna(subset=["claim"])` removes NaN claims, then the cleaned text must be
nonempty. -/
def keepClaim (v : Val) : Bool :=
  v ≠ Val.vna && cleanClaim v ≠ ""

/-- Python `os.path.splitext(s)[0]` (line 51): drop the suffix that starts at
the last dot, unless every character before that dot is itself a dot. -/
def splitextBase (s : String) : String :=
  let l := s.data
  match l.reverse.findIdx? (· = '.') with
  | none => s
  | some k =>
    let sepIdx := l.length - 1 - k
    if (l.take sepIdx).any (· ≠ '.') then ⟨l.take sepIdx⟩ else s

/-- Presence of both canonical columns after header normalization
(lines 40-49). -/
def hasCanonicalCols (t : Table) : Bool :=
  ("claim" ∈ normHeaders t.headers : Bool) &&
    ("label" ∈ normHeaders t.headers : Bool)

/-- Lines 36-58 for one parsed table: skip it unless both canonical columns
exist; otherwise project to claim and label, tag provenance, drop NaN claims,
clean the claim text, and drop rows whose cleaned claim is empty. -/
def processTable (name : String) (t : Table) : Option (List CRow) :=
  match (normHeaders t.headers).findIdx? (· = "claim") with
  | none => none
  | some ci =>
    match (normHeaders t.headers).findIdx? (· = "label") with
    | none => none
    | some li =>
      some ((t.rows.filter fun r => keepClaim (getCell r ci)).map
        fun r => ⟨cleanClaim (getCell r ci), getCell r li, splitextBase name⟩)

/-- One iteration of the merge loop: a read failure only logs and contributes
nothing (lines 60-61). -/
def processFile : FileInput → Option (List CRow)
  | .readError _ => none
  | .ok name t => processTable name t

/-- The `combined` accumulator of the loop at lines 31-58, in file order. -/
def collectCombined : List FileInput → List (List CRow)
  | [] => []
  | f :: rest =>
    match processFile f with
    | some df => df :: collectCombined rest
    | none => collectCombined rest

/-- Line 74: `value_counts(dropna=False)` — row counts per distinct label
value, the NaN bucket included. -/
def labelCounts (rows : List CRow) : List (Val × Nat) :=
  ((rows.map CRow.label).dedup).map fun v =>
    (v, (rows.map CRow.label).count v)

/-- The metrics table printed at lines 69-77: files processed, total rows
after cleaning, and one entry per distinct label value. -/
def reportOf (nfiles : Nat) (result : List CRow) : List (String × String) :=
  ("Files processed", toString nfiles) ::
    ("Total rows (after cleaning)", toString result.length) ::
    (labelCounts result).map fun p => ("Label " ++ strCast p.1, toString p.2)

/-- Outcome of a merge run: `sys.exit(0)` when no `.csv` files are listed
(line 22), `sys.exit(1)` when no file contributed a table (lines 63-65), and
otherwise the written corpus with its printed report (the process then ends
with exit status 0). -/
inductive MergeOutcome where
  | exitZeroNoFiles
  | exitOneCorpusEmpty
  | written (corpus : List CRow) (rep : List (String × String))
deriving DecidableEq, Repr

/-- The exit status of the process for each merge outcome. -/
def exitCode : MergeOutcome → Nat
  | .exitZeroNoFiles => 0
  | .exitOneCorpusEmpty => 1
  | .written _ _ => 0

/-- The body of `combine_processed` after the input directory exists:
list handling, the merge loop, the empty-corpus check, concatenation in file
order (`pd.concat(combined)`), and the metrics report. -/
def combineProcessed (files : List FileInput) : MergeOutcome :=
  if files.isEmpty then .exitZeroNoFiles
  else if (collectCombined files).isEmpty then .exitOneCorpusEmpty
  else
    .written ((collectCombined files).flatten)
      (reportOf files.length ((collectCombined files).flatten))

/-- Number of listed files that contribute no table to `combined`: the files
skipped for a missing canonical column plus the read failures. -/
def skippedCount (files : List FileInput) : Nat :=
  (files.filter fun f => (processFile f).isNone).length

/-- Example input: a well-formed per-source file with three surviving rows,
all labelled 0. -/
def exFileG : FileInput :=
  .ok "good.csv"
    ⟨["claim", "label"],
      [[Val.vstr "A", Val.vint 0], [Val.vstr " b ", Val.vint 0],
        [Val.vstr "c", Val.vint 0]]⟩

/-- Example input: a per-source file without any `label` column. -/
def exFileBad : FileInput :=
  .ok "bad.csv" ⟨["claim", "text"], [[Val.vstr "x", Val.vint 1]]⟩

section EvaluationChecks

example : textualCondB [.vstr "TRUE", .vstr "other"] = true := by decide
example : classify [.vstr "0", .vstr "1"] = .numericBinary := by decide
example : classify [.vint 0, .vint 1, .vint 2] = .categorical := by decide
example :
    normalizeColumn [.vstr "True", .vstr "fake", .vstr "mixed"]
      ⟨true, false, fun _ => ""⟩ =
      [.vint 1, .vint 0, .vstr "mixed"] := by decide
example :
    normalizeColumn [.vstr "0", .vstr "1"] ⟨false, false, fun _ => ""⟩ =
      [.vint 1, .vint 1] := by decide
example :
    normalizeColumn [.vint 0, .vint 1] ⟨false, false, fun _ => ""⟩ =
      [.vint 1, .vint 0] := by decide

example : pyParseInt " -1 " = some (-1) := by decide
example : pyParseInt "1_0" = some 10 := by decide
example : pyParseInt "x" = none := by decide
example : pyParseInt "" = none := by decide
example : selectColumn ["a", "b"] "claim" "-1" = ("b", false) := by decide
example : selectColumn ["a", "b"] "claim" "5" = ("a", true) := by decide
example : selectColumn ["a", "b", "label"] "label" "9" = ("label", true) := by
  decide
example : defaultIdx ["a", "b"] "label" = 1 := by decide
example : splitextBase "a.b.csv" = "a.b" := by decide
example : splitextBase ".csv" = ".csv" := by decide
example : splitextBase "noext" = "noext" := by decide

example :
    processTable "src1.csv" ⟨[" Claim ", "LABEL"], [[.vstr " Hi ", .vint 1]]⟩ =
      some [⟨"hi", .vint 1, "src1"⟩] := by decide
example :
    processTable "x.csv" ⟨["claim"], [[.vstr "a"]]⟩ = none := by decide
example :
    processTable "x.csv" ⟨["claim", "label"], [[.vna, .vint 1], [.vstr "  ", .vint 0], [.vstr "A", .vna]]⟩ =
      some [⟨"a", .vna, "x"⟩] := by decide
example : combineProcessed [] = .exitZeroNoFiles := by decide
example :
    combineProcessed [.readError "a.csv"] = .exitOneCorpusEmpty := by decide
example :
    combineProcessed [.ok "a.csv" ⟨["claim", "label"], []⟩] =
      .written [] [("Files processed", "1"), ("Total rows (after cleaning)", "0")] := by
  decide

end EvaluationChecks

/-! ## Character-level groundwork -/

lemma char_eq_iff_toNat {c d : Char} : c = d ↔ c.toNat = d.toNat := by
  constructor
  · intro h; rw [h]
  · intro h; exact Char.ext (UInt32.toNat.inj h)

lemma char_isDigit_toNat {c : Char} (h : c.isDigit = true) :
    48 ≤ c.toNat ∧ c.toNat ≤ 57 := by
  simp only [Char.isDigit, Bool.and_eq_true, decide_eq_true_eq] at h
  obtain ⟨h1, h2⟩ := h
  constructor
  · exact UInt32.le_toNat_of_le (by norm_num [UInt32.size]) h1
  · exact UInt32.toNat_le_of_le (by norm_num [UInt32.size]) h2

lemma char_toLower_of_not_upper {c : Char} (h : ¬(65 ≤ c.toNat ∧ c.toNat ≤ 90)) :
    c.toLower = c := by
  show (if c.toNat ≥ 65 ∧ c.toNat ≤ 90 then Char.ofNat (c.toNat + 32) else c) = c
  rw [if_neg h]

lemma char_toNat_ofNat_valid {n : Nat} (h : n < 55296) :
    (Char.ofNat n).toNat = n := by
  rw [Char.ofNat, dif_pos (Or.inl h)]
  simp [Char.ofNatAux, Char.toNat, UInt32.toNat]

lemma char_toNat_toLower_upper {c : Char} (h1 : 65 ≤ c.toNat) (h2 : c.toNat ≤ 90) :
    c.toLower.toNat = c.toNat + 32 := by
  show (if c.toNat ≥ 65 ∧ c.toNat ≤ 90 then Char.ofNat (c.toNat + 32) else c).toNat =
    c.toNat + 32
  rw [if_pos ⟨h1, h2⟩]
  exact char_toNat_ofNat_valid (by omega)

lemma char_isWhitespace_iff {c : Char} :
    c.isWhitespace = true ↔
      (c.toNat = 32 ∨ c.toNat = 9 ∨ c.toNat = 13 ∨ c.toNat = 10) := by
  simp only [Char.isWhitespace, Bool.or_eq_true, decide_eq_true_eq]
  rw [char_eq_iff_toNat, char_eq_iff_toNat, char_eq_iff_toNat, char_eq_iff_toNat]
  rw [show (' '.toNat) = 32 from rfl, show ('\t'.toNat) = 9 from rfl,
    show ('\x0d'.toNat) = 13 from rfl, show ('\n'.toNat) = 10 from rfl]
  tauto

lemma char_toLower_toLower (c : Char) : c.toLower.toLower = c.toLower := by
  by_cases h : 65 ≤ c.toNat ∧ c.toNat ≤ 90
  · have hn := char_toNat_toLower_upper h.1 h.2
    exact char_toLower_of_not_upper (by omega)
  · rw [char_toLower_of_not_upper h, char_toLower_of_not_upper h]

lemma char_isWhitespace_toLower (c : Char) :
    c.toLower.isWhitespace = c.isWhitespace := by
  by_cases h : 65 ≤ c.toNat ∧ c.toNat ≤ 90
  · have hn := char_toNat_toLower_upper h.1 h.2
    have h1 : c.isWhitespace = false := by
      rw [Bool.eq_false_iff]
      intro hw
      rcases char_isWhitespace_iff.mp hw with h' | h' | h' | h' <;> omega
    have h2 : c.toLower.isWhitespace = false := by
      rw [Bool.eq_false_iff]
      intro hw
      rcases char_isWhitespace_iff.mp hw with h' | h' | h' | h' <;> omega
    rw [h1, h2]
  · rw [char_toLower_of_not_upper h]

lemma char_toLower_of_isDigit {c : Char} (h : c.isDigit = true) :
    c.toLower = c := by
  have := char_isDigit_toNat h
  exact char_toLower_of_not_upper (by omega)

/-! ## String-level groundwork for `pyLower` and `pyStrip` -/

lemma string_mk_data (s : String) : (⟨s.data⟩ : String) = s := by
  cases s; rfl

lemma pyLower_data (s : String) : (pyLower s).data = s.data.map Char.toLower := rfl

lemma pyStrip_data (s : String) : (pyStrip s).data = stripChars s.data := rfl

lemma stripChars_eq_rdropWhile (l : List Char) :
    stripChars l =
      List.rdropWhile Char.isWhitespace (l.dropWhile Char.isWhitespace) := rfl

lemma stripChars_idem (l : List Char) : stripChars (stripChars l) = stripChars l := by
  rw [stripChars_eq_rdropWhile l, stripChars_eq_rdropWhile]
  set m := l.dropWhile Char.isWhitespace with hm
  have hdrop : (List.rdropWhile Char.isWhitespace m).dropWhile Char.isWhitespace =
      List.rdropWhile Char.isWhitespace m := by
    rw [List.dropWhile_eq_self_iff]
    intro hl
    have hp : List.rdropWhile Char.isWhitespace m <+: m := List.rdropWhile_prefix _ _
    have hlen : 0 < m.length := Nat.lt_of_lt_of_le hl hp.length_le
    have hg : (List.rdropWhile Char.isWhitespace m).get ⟨0, hl⟩ = m.get ⟨0, hlen⟩ := by
      simpa using hp.getElem hl
    rw [hg]
    exact List.dropWhile_get_zero_not Char.isWhitespace l hlen
  rw [hdrop]
  exact List.rdropWhile_idempotent _ _

lemma char_ws_comp_toLower :
    (Char.isWhitespace ∘ Char.toLower) = Char.isWhitespace := by
  funext c
  exact char_isWhitespace_toLower c

lemma stripChars_map_toLower (l : List Char) :
    stripChars (l.map Char.toLower) = (stripChars l).map Char.toLower := by
  simp [stripChars, List.dropWhile_map, char_ws_comp_toLower, ← List.map_reverse]

lemma pyLower_pyLower (s : String) : pyLower (pyLower s) = pyLower s := by
  show (⟨(s.data.map Char.toLower).map Char.toLower⟩ : String) = ⟨s.data.map Char.toLower⟩
  rw [List.map_map]
  have hmm : s.data.map (Char.toLower ∘ Char.toLower) = s.data.map Char.toLower :=
    List.map_congr_left (fun c _ => char_toLower_toLower c)
  rw [hmm]

lemma pyStrip_pyLower (s : String) : pyStrip (pyLower s) = pyLower (pyStrip s) := by
  show (⟨stripChars (s.data.map Char.toLower)⟩ : String) = ⟨(stripChars s.data).map Char.toLower⟩
  rw [stripChars_map_toLower]

lemma pyStrip_pyStrip (s : String) : pyStrip (pyStrip s) = pyStrip s := by
  show (⟨stripChars (stripChars s.data)⟩ : String) = ⟨stripChars s.data⟩
  rw [stripChars_idem]

lemma pyLower_of_isdigit {s : String} (h : isdigitStr s = true) : pyLower s = s := by
  simp only [isdigitStr, Bool.and_eq_true, List.all_eq_true] at h
  have hmap : s.data.map Char.toLower = s.data := by
    conv_rhs => rw [← List.map_id s.data]
    exact List.map_congr_left (fun c hc => char_toLower_of_isDigit (h.2 c hc))
  show (⟨s.data.map Char.toLower⟩ : String) = s
  rw [hmap]

/-! ## Normalization branch lemmas -/

lemma textualCondB_eq_false {col : List Val}
    (h : ∀ v ∈ col, pyLower (strCast v) ≠ "true" ∧ pyLower (strCast v) ≠ "fake") :
    textualCondB col = false := by
  rw [textualCondB, List.any_eq_false]
  intro v hv
  simp [(h v hv).1, (h v hv).2]

lemma isdigit_not_vocab {v : Val} (h : isdigitStr (strCast v) = true) :
    pyLower (strCast v) ≠ "true" ∧ pyLower (strCast v) ≠ "fake" := by
  rw [pyLower_of_isdigit h]
  constructor <;> intro he <;> rw [he] at h <;> exact absurd h (by decide)

lemma classify_textual {col : List Val} (h : textualCondB col = true) :
    classify col = Regime.textual := by
  simp [classify, h]

lemma classify_numeric {col : List Val} (ht : textualCondB col = false)
    (hn : numericCondB col = true) : classify col = Regime.numericBinary := by
  simp [classify, ht, hn]

lemma classify_categorical {col : List Val} (ht : textualCondB col = false)
    (hn : numericCondB col = false) : classify col = Regime.categorical := by
  simp [classify, ht, hn]

lemma binVals_conds {col : List Val}
    (h : ∀ v ∈ col, v = Val.vint 0 ∨ v = Val.vint 1) :
    textualCondB col = false ∧ numericCondB col = true := by
  constructor
  · apply textualCondB_eq_false
    intro v hv
    rcases h v hv with rfl | rfl <;> exact ⟨by decide, by decide⟩
  · simp only [numericCondB, Bool.and_eq_true, List.all_eq_true]
    constructor <;> intro v hv <;> rcases h v hv with rfl | rfl <;> decide

lemma textualMap_true {v : Val} (h : pyLower (strCast v) = "true") :
    textualMap v = Val.vint 1 := by
  simp [textualMap, defaultMapping, h]

lemma textualMap_fake {v : Val} (h : pyLower (strCast v) = "fake") :
    textualMap v = Val.vint 0 := by
  simp [textualMap, defaultMapping, h]

lemma textualMap_other {v : Val} (h1 : pyLower (strCast v) ≠ "true")
    (h2 : pyLower (strCast v) ≠ "fake") : textualMap v = v := by
  simp [textualMap, defaultMapping, h1, h2]

/-! ## Claim theorems -/

/-- C1: for any label column whose string-cast, lower-cased value set meets
the vocabulary (true: 1, fake: 0), the textual branch is chosen — by the
if/elif ordering this holds irrespective of the numeric-binary condition —
and normalization rewrites the column pointwise, sending every value that
lower-cases to "true" to 1, every value that lower-cases to "fake" to 0, and
leaving every other value as its original value. -/
theorem C1_textual_vocabulary (col : List Val) (a : Answers)
    (h : textualCondB col = true) :
    classify col = Regime.textual ∧
    normalizeColumn col a = col.map textualMap ∧
    (∀ v : Val, pyLower (strCast v) = "true" → textualMap v = Val.vint 1) ∧
    (∀ v : Val, pyLower (strCast v) = "fake" → textualMap v = Val.vint 0) ∧
    (∀ v : Val, pyLower (strCast v) ≠ "true" → pyLower (strCast v) ≠ "fake" →
      textualMap v = v) := by
  have hc := classify_textual h
  refine ⟨hc, ?_, fun v hv => textualMap_true hv, fun v hv => textualMap_fake hv,
    fun v h1 h2 => textualMap_other h1 h2⟩
  unfold normalizeColumn
  apply List.map_congr_left
  intro v _
  simp [elemNormalize, hc]

theorem C1_textual_vocabulary_witness :
    textualCondB [Val.vstr "True", Val.vstr "fake", Val.vstr "Other", Val.vint 3] = true ∧
    (classify [Val.vstr "True", Val.vstr "fake", Val.vstr "Other", Val.vint 3] = Regime.textual ∧
      normalizeColumn [Val.vstr "True", Val.vstr "fake", Val.vstr "Other", Val.vint 3]
          ⟨true, false, fun _ => ""⟩ =
        [Val.vstr "True", Val.vstr "fake", Val.vstr "Other", Val.vint 3].map textualMap ∧
      (∀ v : Val, pyLower (strCast v) = "true" → textualMap v = Val.vint 1) ∧
      (∀ v : Val, pyLower (strCast v) = "fake" → textualMap v = Val.vint 0) ∧
      (∀ v : Val, pyLower (strCast v) ≠ "true" → pyLower (strCast v) ≠ "fake" →
        textualMap v = v)) :=
  ⟨by decide,
    C1_textual_vocabulary [Val.vstr "True", Val.vstr "fake", Val.vstr "Other", Val.vint 3]
      ⟨true, false, fun _ => ""⟩ (by decide)⟩

/-- C2: on a label column whose values are all the integers 0 or 1, the
numeric-binary branch is chosen, and when the operator rejects the proposed
convention the flip sends 0 to 1 and 1 to 0 pointwise; normalizing twice with
a rejecting operator returns the original column (involution). -/
theorem C2_numeric_flip (col : List Val) (a : Answers)
    (h : ∀ v ∈ col, v = Val.vint 0 ∨ v = Val.vint 1)
    (hrej : a.keepNumeric = false) :
    classify col = Regime.numericBinary ∧
    normalizeColumn col a = col.map flipMap ∧
    flipMap (Val.vint 0) = Val.vint 1 ∧
    flipMap (Val.vint 1) = Val.vint 0 ∧
    normalizeColumn (normalizeColumn col a) a = col := by
  obtain ⟨ht, hn⟩ := binVals_conds h
  have hc := classify_numeric ht hn
  have heq : normalizeColumn col a = col.map flipMap := by
    unfold normalizeColumn
    apply List.map_congr_left
    intro v _
    simp [elemNormalize, hc, hrej]
  refine ⟨hc, heq, by decide, by decide, ?_⟩
  have h2 : ∀ v ∈ col.map flipMap, v = Val.vint 0 ∨ v = Val.vint 1 := by
    intro v hv
    rw [List.mem_map] at hv
    obtain ⟨w, hw, rfl⟩ := hv
    rcases h w hw with rfl | rfl
    · right; decide
    · left; decide
  obtain ⟨ht2, hn2⟩ := binVals_conds h2
  have hc2 := classify_numeric ht2 hn2
  have heq2 : normalizeColumn (col.map flipMap) a = (col.map flipMap).map flipMap := by
    unfold normalizeColumn
    apply List.map_congr_left
    intro v _
    simp [elemNormalize, hc2, hrej]
  rw [heq, heq2, List.map_map]
  have hid : ∀ v ∈ col, (flipMap ∘ flipMap) v = v := by
    intro v hv
    rcases h v hv with rfl | rfl <;> decide
  calc col.map (flipMap ∘ flipMap) = col.map id := List.map_congr_left hid
    _ = col := List.map_id col

theorem C2_numeric_flip_witness :
    (∀ v ∈ [Val.vint 1, Val.vint 0, Val.vint 1], v = Val.vint 0 ∨ v = Val.vint 1) ∧
    (Answers.keepNumeric ⟨false, false, fun _ => ""⟩ = false) ∧
    (classify [Val.vint 1, Val.vint 0, Val.vint 1] = Regime.numericBinary ∧
      normalizeColumn [Val.vint 1, Val.vint 0, Val.vint 1] ⟨false, false, fun _ => ""⟩ =
        [Val.vint 1, Val.vint 0, Val.vint 1].map flipMap ∧
      flipMap (Val.vint 0) = Val.vint 1 ∧
      flipMap (Val.vint 1) = Val.vint 0 ∧
      normalizeColumn
          (normalizeColumn [Val.vint 1, Val.vint 0, Val.vint 1] ⟨false, false, fun _ => ""⟩)
          ⟨false, false, fun _ => ""⟩ =
        [Val.vint 1, Val.vint 0, Val.vint 1]) :=
  ⟨by decide, rfl,
    C2_numeric_flip [Val.vint 1, Val.vint 0, Val.vint 1] ⟨false, false, fun _ => ""⟩
      (by decide) rfl⟩

/-- C8: a label column each of whose values string-casts to an integer
literal (a digit string) but whose integer set is not contained in 0, 1 does
not take the numeric-binary branch: classification falls through to the
arbitrary-categorical branch. -/
theorem C8_non_binary_integers (col : List Val)
    (hd : ∀ v ∈ col, isdigitStr (strCast v) = true)
    (hs : ¬∀ v ∈ col, pyInt v = 0 ∨ pyInt v = 1) :
    numericCondB col = false ∧ classify col = Regime.categorical := by
  have ht : textualCondB col = false :=
    textualCondB_eq_false fun v hv => isdigit_not_vocab (hd v hv)
  have h2 : (col.all fun v => pyInt v = 0 || pyInt v = 1) = false := by
    rw [List.all_eq_false]
    push_neg at hs
    obtain ⟨v, hv, hnv⟩ := hs
    exact ⟨v, hv, by simpa using hnv⟩
  have hn : numericCondB col = false := by
    rw [numericCondB, h2, Bool.and_false]
  exact ⟨hn, classify_categorical ht hn⟩

theorem C8_non_binary_integers_witness :
    (∀ v ∈ [Val.vint 0, Val.vint 1, Val.vint 2], isdigitStr (strCast v) = true) ∧
    (¬∀ v ∈ [Val.vint 0, Val.vint 1, Val.vint 2], pyInt v = 0 ∨ pyInt v = 1) ∧
    (numericCondB [Val.vint 0, Val.vint 1, Val.vint 2] = false ∧
      classify [Val.vint 0, Val.vint 1, Val.vint 2] = Regime.categorical) :=
  ⟨by decide, by decide,
    C8_non_binary_integers [Val.vint 0, Val.vint 1, Val.vint 2] (by decide) (by decide)⟩

/-- C6 counterexample: the column of digit strings "0", "1" passes the
numeric-binary condition (line 185 int-casts the values), and on operator
rejection the flip lambda `0 if x == 1 else 1` compares the string "0"
against the integer 1, so the raw value "0" — which is outside the 0 to 1 and
1 to 0 flip mapping — is rewritten to the integer 1 instead of being left as
its original value. -/
theorem C6_counterexample :
    classify [Val.vstr "0", Val.vstr "1"] = Regime.numericBinary ∧
    Val.vstr "0" ≠ Val.vint 0 ∧ Val.vstr "0" ≠ Val.vint 1 ∧
    normalizeColumn [Val.vstr "0", Val.vstr "1"] ⟨false, false, fun _ => ""⟩ =
      [Val.vint 1, Val.vint 1] ∧
    Val.vint 1 ≠ Val.vstr "0" := by decide

/-- C6 amended: normalization is a single pointwise pass — it preserves
length and positions, so rows are never reordered — and no value ever
becomes missing.  In the textual regime values outside the vocabulary are
unchanged; in the numeric-binary regime with the operator accepting all
values are unchanged; in the categorical regime values without a prompted
target (or with manual remapping declined) are unchanged.  In the
numeric-binary regime with the operator rejecting, however, the code flips
every cell: the integer 1 maps to 0 and every other value — including digit
strings, which can satisfy the branch condition — maps to the integer 1. -/
theorem C6_single_pass_invariants (col : List Val) (a : Answers) :
    (normalizeColumn col a).length = col.length ∧
    (∀ i : Nat, (normalizeColumn col a)[i]? =
      Option.map (elemNormalize col a) col[i]?) ∧
    (∀ v : Val, elemNormalize col a v = Val.vna → v = Val.vna) ∧
    (classify col = Regime.textual →
      ∀ v : Val, pyLower (strCast v) ≠ "true" → pyLower (strCast v) ≠ "fake" →
        elemNormalize col a v = v) ∧
    (classify col = Regime.numericBinary → a.keepNumeric = true →
      ∀ v : Val, elemNormalize col a v = v) ∧
    (classify col = Regime.numericBinary → a.keepNumeric = false →
      elemNormalize col a (Val.vint 1) = Val.vint 0 ∧
      ∀ v : Val, v ≠ Val.vint 1 → elemNormalize col a v = Val.vint 1) ∧
    (classify col = Regime.categorical →
      ∀ v : Val, a.doManual = false ∨ manualTarget a.manualAns v = none →
        elemNormalize col a v = v) := by
  refine ⟨by simp [normalizeColumn], fun i => by simp [normalizeColumn], ?_, ?_, ?_, ?_, ?_⟩
  · intro v hv
    cases hc : classify col <;> simp only [elemNormalize, hc] at hv
    · unfold textualMap at hv
      cases hd : defaultMapping (pyLower (strCast v)) <;> rw [hd] at hv
      · exact hv
      · exact absurd hv (by simp)
    · by_cases hk : a.keepNumeric = true
      · rwa [if_pos hk] at hv
      · rw [if_neg hk] at hv
        unfold flipMap at hv
        by_cases h1 : v = Val.vint 1
        · rw [if_pos h1] at hv; exact absurd hv (by simp)
        · rw [if_neg h1] at hv; exact absurd hv (by simp)
    · by_cases hm : a.doManual = true
      · rw [if_pos hm] at hv
        unfold categoricalMap manualTarget at hv
        by_cases he : a.manualAns v = ""
        · simp only [he] at hv
          exact hv
        · simp only [he] at hv
          by_cases hdg : isdigitStr (a.manualAns v) = true <;> simp [hdg] at hv
      · rwa [if_neg hm] at hv
  · intro hc v h1 h2
    simp only [elemNormalize, hc]
    exact textualMap_other h1 h2
  · intro hc hk v
    simp [elemNormalize, hc, hk]
  · intro hc hk
    refine ⟨?_, fun v h1 => ?_⟩
    · simp [elemNormalize, hc, hk, flipMap]
    · simp [elemNormalize, hc, hk, flipMap, h1]
  · intro hc v hv
    rcases hv with hm | hm
    · simp [elemNormalize, hc, hm]
    · by_cases hdm : a.doManual = true
      · simp [elemNormalize, hc, hdm, categoricalMap, hm]
      · simp [elemNormalize, hc, hdm]

theorem C6_single_pass_invariants_witness :
    classify [Val.vstr "true", Val.vstr "z"] = Regime.textual ∧
    pyLower (strCast (Val.vstr "z")) ≠ "true" ∧
    pyLower (strCast (Val.vstr "z")) ≠ "fake" ∧
    elemNormalize [Val.vstr "true", Val.vstr "z"] ⟨true, false, fun _ => ""⟩
      (Val.vstr "z") = Val.vstr "z" :=
  ⟨by decide, by decide, by decide,
    (C6_single_pass_invariants [Val.vstr "true", Val.vstr "z"]
        ⟨true, false, fun _ => ""⟩).2.2.2.1 (by decide) (Val.vstr "z")
      (by decide) (by decide)⟩

lemma textualCondB_congr {c1 c2 : List Val} (h : ∀ v : Val, v ∈ c1 ↔ v ∈ c2) :
    textualCondB c1 = textualCondB c2 := by
  rw [Bool.eq_iff_iff]
  simp only [textualCondB, List.any_eq_true]
  constructor <;> rintro ⟨v, hv, hp⟩
  · exact ⟨v, (h v).mp hv, hp⟩
  · exact ⟨v, (h v).mpr hv, hp⟩

lemma numericCondB_congr {c1 c2 : List Val} (h : ∀ v : Val, v ∈ c1 ↔ v ∈ c2) :
    numericCondB c1 = numericCondB c2 := by
  rw [Bool.eq_iff_iff]
  simp only [numericCondB, Bool.and_eq_true, List.all_eq_true]
  constructor <;> rintro ⟨h1, h2⟩
  · exact ⟨fun v hv => h1 v ((h v).mpr hv), fun v hv => h2 v ((h v).mpr hv)⟩
  · exact ⟨fun v hv => h1 v ((h v).mp hv), fun v hv => h2 v ((h v).mp hv)⟩

/-- C9: the classification decision and the value-to-value mapping depend
only on the label value set (which values occur in the column) and on the
operator answers; two columns with the same value set and the same answers
receive the identical mapping.  The random example rows sampled for display
at line 161 of `index.py` do not enter any definition of the mapping. -/
theorem C9_deterministic_mapping (c1 c2 : List Val) (a : Answers)
    (h : ∀ v : Val, v ∈ c1 ↔ v ∈ c2) :
    classify c1 = classify c2 ∧
    ∀ v : Val, elemNormalize c1 a v = elemNormalize c2 a v := by
  have hc : classify c1 = classify c2 := by
    rw [classify, classify, textualCondB_congr h, numericCondB_congr h]
  refine ⟨hc, fun v => ?_⟩
  unfold elemNormalize
  rw [hc]

theorem C9_deterministic_mapping_witness :
    (∀ v : Val, v ∈ [Val.vstr "x", Val.vstr "true"] ↔
      v ∈ [Val.vstr "true", Val.vstr "x", Val.vstr "x"]) ∧
    (classify [Val.vstr "x", Val.vstr "true"] =
      classify [Val.vstr "true", Val.vstr "x", Val.vstr "x"] ∧
    ∀ v : Val, elemNormalize [Val.vstr "x", Val.vstr "true"] ⟨true, true, fun _ => "7"⟩ v =
      elemNormalize [Val.vstr "true", Val.vstr "x", Val.vstr "x"] ⟨true, true, fun _ => "7"⟩ v) :=
  ⟨fun v => by constructor <;> intro hv <;> simp at hv ⊢ <;> tauto,
    C9_deterministic_mapping [Val.vstr "x", Val.vstr "true"]
      [Val.vstr "true", Val.vstr "x", Val.vstr "x"] ⟨true, true, fun _ => "7"⟩
      (fun v => by constructor <;> intro hv <;> simp at hv ⊢ <;> tauto)⟩

/-! ## Merge lemmas -/

lemma collectCombined_eq (files : List FileInput) :
    collectCombined files = files.filterMap processFile := by
  induction files with
  | nil => rfl
  | cons f rest ih =>
    cases hf : processFile f <;> simp [collectCombined, hf, ih]

lemma exitCode_ne_zero_iff (m : MergeOutcome) :
    exitCode m ≠ 0 ↔ m = MergeOutcome.exitOneCorpusEmpty := by
  cases m <;> simp [exitCode]

lemma combineProcessed_eq_exitOne_iff (files : List FileInput) :
    combineProcessed files = MergeOutcome.exitOneCorpusEmpty ↔
      files ≠ [] ∧ ∀ f ∈ files, processFile f = none := by
  unfold combineProcessed
  by_cases h1 : files.isEmpty
  · rw [if_pos h1]
    rw [List.isEmpty_iff] at h1
    simp [h1]
  · rw [if_neg h1]
    rw [List.isEmpty_iff] at h1
    by_cases h2 : (collectCombined files).isEmpty
    · rw [if_pos h2]
      rw [collectCombined_eq, List.isEmpty_iff, List.filterMap_eq_nil_iff] at h2
      simp only [true_iff, eq_self_iff_true]
      exact ⟨h1, h2⟩
    · rw [if_neg h2]
      rw [collectCombined_eq, List.isEmpty_iff] at h2
      constructor
      · intro hcontra
        exact absurd hcontra (by simp)
      · rintro ⟨hne, hall⟩
        exact absurd (List.filterMap_eq_nil_iff.mpr hall) h2

lemma combineProcessed_written {files : List FileInput} {corpus : List CRow}
    {rep : List (String × String)}
    (h : combineProcessed files = MergeOutcome.written corpus rep) :
    corpus = (files.filterMap processFile).flatten ∧
    rep = reportOf files.length corpus := by
  unfold combineProcessed at h
  by_cases h1 : files.isEmpty
  · rw [if_pos h1] at h
    exact absurd h (by simp)
  · rw [if_neg h1] at h
    by_cases h2 : (collectCombined files).isEmpty
    · rw [if_pos h2] at h
      exact absurd h (by simp)
    · rw [if_neg h2] at h
      rw [MergeOutcome.written.injEq] at h
      obtain ⟨hc, hr⟩ := h
      rw [collectCombined_eq] at hc
      refine ⟨hc.symm, ?_⟩
      rw [← hr, ← hc, collectCombined_eq]

lemma combineProcessed_eq_written {files : List FileInput} {f : FileInput}
    (hf : f ∈ files) (hsome : processFile f ≠ none) :
    combineProcessed files =
      MergeOutcome.written ((files.filterMap processFile).flatten)
        (reportOf files.length ((files.filterMap processFile).flatten)) := by
  have hne : ¬files.isEmpty := by
    rw [List.isEmpty_iff]
    rintro rfl
    simp at hf
  have hco : ¬(collectCombined files).isEmpty := by
    rw [collectCombined_eq, List.isEmpty_iff]
    intro hnil
    exact hsome (List.filterMap_eq_nil_iff.mp hnil f hf)
  unfold combineProcessed
  rw [if_neg hne, if_neg hco, collectCombined_eq]

/-- C4 counterexample: with no per-source files at all the merge terminates
with exit status 0 (`sys.exit(0)` at line 22 of `combine.py`), not a non-zero
status as claimed; and a file that has both canonical columns but contributes
zero surviving rows still counts as a contribution, so the run writes an
empty corpus and exits 0 even though zero valid rows exist anywhere. -/
theorem C4_counterexample :
    combineProcessed [] = MergeOutcome.exitZeroNoFiles ∧
    exitCode (combineProcessed []) = 0 ∧
    combineProcessed [FileInput.ok "empty.csv" ⟨["claim", "label"], []⟩] =
      MergeOutcome.written []
        [("Files processed", "1"), ("Total rows (after cleaning)", "0")] ∧
    exitCode (combineProcessed [FileInput.ok "empty.csv" ⟨["claim", "label"], []⟩]) =
      0 := by decide

/-- C4 amended: the merge terminates with a non-zero exit status iff the file
list is nonempty and every listed file is skipped (missing canonical column
or unreadable); an empty file list exits with status 0 without writing, and a
file owning both canonical columns counts as contributing even when none of
its rows survive cleaning.  Whenever some file contributes, the concatenated
corpus and its report are written; no other per-file condition is fatal. -/
theorem C4_failure_criterion (files : List FileInput) :
    (combineProcessed files = MergeOutcome.exitOneCorpusEmpty ↔
      files ≠ [] ∧ ∀ f ∈ files, processFile f = none) ∧
    (exitCode (combineProcessed files) ≠ 0 ↔
      files ≠ [] ∧ ∀ f ∈ files, processFile f = none) ∧
    (∀ f ∈ files, processFile f ≠ none →
      combineProcessed files =
        MergeOutcome.written ((files.filterMap processFile).flatten)
          (reportOf files.length ((files.filterMap processFile).flatten))) := by
  refine ⟨combineProcessed_eq_exitOne_iff files, ?_, ?_⟩
  · rw [exitCode_ne_zero_iff]
    exact combineProcessed_eq_exitOne_iff files
  · intro f hf hsome
    exact combineProcessed_eq_written hf hsome

theorem C4_failure_criterion_witness :
    exFileG ∈ [exFileG, exFileBad] ∧
    processFile exFileG ≠ none ∧
    combineProcessed [exFileG, exFileBad] =
      MergeOutcome.written (([exFileG, exFileBad].filterMap processFile).flatten)
        (reportOf [exFileG, exFileBad].length
          (([exFileG, exFileBad].filterMap processFile).flatten)) :=
  ⟨by decide, by decide,
    (C4_failure_criterion [exFileG, exFileBad]).2.2 exFileG (by decide) (by decide)⟩

lemma filterMap_erase_none {f : FileInput} (hf : processFile f = none)
    (files : List FileInput) :
    (files.erase f).filterMap processFile = files.filterMap processFile := by
  induction files with
  | nil => rfl
  | cons x rest ih =>
    by_cases hx : x = f
    · subst hx
      rw [List.erase_cons_head]
      simp [List.filterMap_cons, hf]
    · rw [List.erase_cons_tail (by simpa using hx)]
      simp only [List.filterMap_cons]
      cases processFile x <;> simp [ih]

lemma processFile_eq_none_of_missing {name : String} {t : Table}
    (hmiss : hasCanonicalCols t = false) :
    processFile (FileInput.ok name t) = none := by
  unfold hasCanonicalCols at hmiss
  rcases Bool.and_eq_false_iff.mp hmiss with hcl | hlb
  · have hnone : (normHeaders t.headers).findIdx? (· = "claim") = none := by
      rw [List.findIdx?_eq_none_iff]
      intro x hx
      simp only [decide_eq_false_iff_not] at hcl ⊢
      intro hxe
      exact hcl (hxe ▸ hx)
    simp [processFile, processTable, hnone]
  · have hnone : (normHeaders t.headers).findIdx? (· = "label") = none := by
      rw [List.findIdx?_eq_none_iff]
      intro x hx
      simp only [decide_eq_false_iff_not] at hlb ⊢
      intro hxe
      exact hlb (hxe ▸ hx)
    unfold processFile processTable
    rcases hc : (normHeaders t.headers).findIdx? (· = "claim") with _ | ci <;>
      simp [hc, hnone]

/-- C3 counterexample: a concrete merge of one valid file (three rows, all
labelled 0) and one file lacking the `label` column.  The skipped file
contributes zero rows and the run does not fail, but the printed metrics
report — files processed, total rows, per-label counts — contains no entry
whose value is the number of skipped files (1): the code never computes or
reports a skipped total. -/
theorem C3_counterexample :
    hasCanonicalCols ⟨["claim", "text"], [[Val.vstr "x", Val.vint 1]]⟩ = false ∧
    processFile exFileBad = none ∧
    skippedCount [exFileG, exFileBad] = 1 ∧
    combineProcessed [exFileG, exFileBad] =
      MergeOutcome.written
        [⟨"a", Val.vint 0, "good"⟩, ⟨"b", Val.vint 0, "good"⟩,
          ⟨"c", Val.vint 0, "good"⟩]
        [("Files processed", "2"), ("Total rows (after cleaning)", "3"),
          ("Label 0", "3")] ∧
    (([("Files processed", "2"), ("Total rows (after cleaning)", "3"),
        ("Label 0", "3")].map Prod.snd).contains "1") = false := by decide

/-- C3 amended: a per-source file lacking either canonical column after
header trimming and lower-casing is skipped: it contributes exactly zero rows
to the corpus (removing it from the file list leaves the contributed tables
unchanged) and the merge — a total function here, mirroring the `continue`
at lines 44 and 49 — never fails because of it.  The printed report consists
of the total files considered, the total rows retained, and one bucket per
distinct label value of the corpus (the missing-label value NaN included);
no skipped-files total appears in it, the individual skips being only logged
per file. -/
theorem C3_missing_column_files (files : List FileInput) (name : String)
    (t : Table) (_hmem : FileInput.ok name t ∈ files)
    (hmiss : hasCanonicalCols t = false) :
    processFile (FileInput.ok name t) = none ∧
    (files.erase (FileInput.ok name t)).filterMap processFile =
      files.filterMap processFile ∧
    (∀ corpus rep, combineProcessed files = MergeOutcome.written corpus rep →
      rep = ("Files processed", toString files.length) ::
        ("Total rows (after cleaning)", toString corpus.length) ::
          (labelCounts corpus).map
            (fun p => ("Label " ++ strCast p.1, toString p.2))) ∧
    (∀ corpus rep, combineProcessed files = MergeOutcome.written corpus rep →
      ∀ v ∈ corpus.map CRow.label,
        ("Label " ++ strCast v, toString ((corpus.map CRow.label).count v)) ∈
          rep) := by
  have hnone := @processFile_eq_none_of_missing name t hmiss
  refine ⟨hnone, filterMap_erase_none hnone files, ?_, ?_⟩
  · intro corpus rep h
    exact (combineProcessed_written h).2
  · intro corpus rep h v hv
    have hrep := (combineProcessed_written h).2
    rw [hrep]
    have hd : v ∈ (corpus.map CRow.label).dedup := List.mem_dedup.mpr hv
    have hpair : (v, (corpus.map CRow.label).count v) ∈ labelCounts corpus := by
      unfold labelCounts
      exact List.mem_map_of_mem _ hd
    have : ("Label " ++ strCast v, toString ((corpus.map CRow.label).count v)) ∈
        (labelCounts corpus).map
          (fun p => ("Label " ++ strCast p.1, toString p.2)) := by
      have := List.mem_map_of_mem
        (fun p : Val × Nat => ("Label " ++ strCast p.1, toString p.2)) hpair
      simpa using this
    unfold reportOf
    exact List.mem_cons_of_mem _ (List.mem_cons_of_mem _ this)

theorem C3_missing_column_files_witness :
    (FileInput.ok "bad.csv" ⟨["claim", "text"], [[Val.vstr "x", Val.vint 1]]⟩ ∈
      [exFileG, exFileBad]) ∧
    hasCanonicalCols ⟨["claim", "text"], [[Val.vstr "x", Val.vint 1]]⟩ = false ∧
    processFile
      (FileInput.ok "bad.csv" ⟨["claim", "text"], [[Val.vstr "x", Val.vint 1]]⟩) =
      none :=
  ⟨by decide, by decide,
    (C3_missing_column_files [exFileG, exFileBad] "bad.csv"
      ⟨["claim", "text"], [[Val.vstr "x", Val.vint 1]]⟩ (by decide) (by decide)).1⟩

lemma processTable_eq_some {name : String} {t : Table} {rs : List CRow}
    (h : processTable name t = some rs) :
    ∃ ci li, (normHeaders t.headers).findIdx? (· = "claim") = some ci ∧
      (normHeaders t.headers).findIdx? (· = "label") = some li ∧
      rs = (t.rows.filter fun r => keepClaim (getCell r ci)).map
        fun r => ⟨cleanClaim (getCell r ci), getCell r li, splitextBase name⟩ := by
  unfold processTable at h
  rcases hc : (normHeaders t.headers).findIdx? (· = "claim") with _ | ci <;>
    rw [hc] at h
  · simp at h
  · rcases hl : (normHeaders t.headers).findIdx? (· = "label") with _ | li <;>
      rw [hl] at h
    · simp at h
    · simp only [Option.some.injEq] at h
      exact ⟨ci, li, rfl, rfl, h.symm⟩

lemma cleanClaim_strip (v : Val) : pyStrip (cleanClaim v) = cleanClaim v := by
  unfold cleanClaim
  rw [pyStrip_pyLower, pyStrip_pyStrip]

lemma cleanClaim_lower (v : Val) : pyLower (cleanClaim v) = cleanClaim v :=
  pyLower_pyLower _

/-- C5: whenever the merge writes a corpus, the corpus is the in-order
concatenation of the per-file row lists (file discovery order outside,
original row order inside, since each per-file list arises by an
order-preserving filter and map); every row is a `CRow` — exactly the fields
`claim`, `label`, `source` — whose claim text is nonempty, already trimmed
and already lower-cased, and whose source is the base name (extension
stripped) of the file it came from. -/
theorem C5_corpus_row_shape (files : List FileInput) (corpus : List CRow)
    (rep : List (String × String))
    (h : combineProcessed files = MergeOutcome.written corpus rep) :
    corpus = (files.filterMap processFile).flatten ∧
    (∀ name t, FileInput.ok name t ∈ files →
      ∀ rs, processTable name t = some rs →
        ∃ ci li,
          (normHeaders t.headers).findIdx? (· = "claim") = some ci ∧
          (normHeaders t.headers).findIdx? (· = "label") = some li ∧
          rs = (t.rows.filter fun r => keepClaim (getCell r ci)).map
            fun r => ⟨cleanClaim (getCell r ci), getCell r li, splitextBase name⟩) ∧
    (∀ r ∈ corpus, r.claim ≠ "" ∧ pyStrip r.claim = r.claim ∧
      pyLower r.claim = r.claim ∧
      ∃ name t, FileInput.ok name t ∈ files ∧ r.source = splitextBase name) := by
  have hcor := (combineProcessed_written h).1
  refine ⟨hcor, fun name t _ rs hrs => processTable_eq_some hrs, ?_⟩
  intro r hr
  rw [hcor, List.mem_flatten] at hr
  obtain ⟨rs, hrsmem, hrin⟩ := hr
  rw [List.mem_filterMap] at hrsmem
  obtain ⟨f, hfmem, hfeq⟩ := hrsmem
  cases f with
  | readError n => simp [processFile] at hfeq
  | ok name t =>
    obtain ⟨ci, li, hci, hli, hrs⟩ :=
      processTable_eq_some (show processTable name t = some rs from hfeq)
    subst hrs
    rw [List.mem_map] at hrin
    obtain ⟨row, hrow, hreq⟩ := hrin
    rw [List.mem_filter] at hrow
    obtain ⟨hrowmem, hkeep⟩ := hrow
    have hcl : r.claim = cleanClaim (getCell row ci) := by rw [← hreq]
    have hsrc : r.source = splitextBase name := by rw [← hreq]
    have hkc : cleanClaim (getCell row ci) ≠ "" := by
      simp only [keepClaim, Bool.and_eq_true, decide_eq_true_eq] at hkeep
      exact hkeep.2
    refine ⟨by rw [hcl]; exact hkc, ?_, ?_, name, t, hfmem, hsrc⟩
    · rw [hcl]; exact cleanClaim_strip _
    · rw [hcl]; exact cleanClaim_lower _

theorem C5_corpus_row_shape_witness :
    combineProcessed [exFileG, exFileBad] =
      MergeOutcome.written
        [⟨"a", Val.vint 0, "good"⟩, ⟨"b", Val.vint 0, "good"⟩,
          ⟨"c", Val.vint 0, "good"⟩]
        [("Files processed", "2"), ("Total rows (after cleaning)", "3"),
          ("Label 0", "3")] ∧
    [⟨"a", Val.vint 0, "good"⟩, ⟨"b", Val.vint 0, "good"⟩,
        ⟨"c", Val.vint 0, "good"⟩] =
      (([exFileG, exFileBad]).filterMap processFile).flatten :=
  ⟨by decide,
    (C5_corpus_row_shape [exFileG, exFileBad]
      [⟨"a", Val.vint 0, "good"⟩, ⟨"b", Val.vint 0, "good"⟩,
        ⟨"c", Val.vint 0, "good"⟩]
      [("Files processed", "2"), ("Total rows (after cleaning)", "3"),
        ("Label 0", "3")] (by decide)).1⟩

/-- C10: the merge never modifies the label column: for a file with both
canonical columns, its contribution is exactly the claim-surviving rows in
order, each carrying the label cell read from the file unchanged — the
projection of the contributed rows to their labels equals the projection of
the surviving source rows to the label column — and survival is decided by
the claim cell alone, so a row whose label is missing (NaN) is still
retained. -/
theorem C10_label_passthrough (name : String) (t : Table) (ci li : Nat)
    (hci : (normHeaders t.headers).findIdx? (· = "claim") = some ci)
    (hli : (normHeaders t.headers).findIdx? (· = "label") = some li) :
    processFile (FileInput.ok name t) =
      some ((t.rows.filter fun r => keepClaim (getCell r ci)).map
        fun r => ⟨cleanClaim (getCell r ci), getCell r li, splitextBase name⟩) ∧
    (∀ rs, processFile (FileInput.ok name t) = some rs →
      rs.map CRow.label =
        (t.rows.filter fun r => keepClaim (getCell r ci)).map
          fun r => getCell r li) ∧
    (∀ row ∈ t.rows, keepClaim (getCell row ci) = true →
      (⟨cleanClaim (getCell row ci), getCell row li, splitextBase name⟩ : CRow) ∈
        (processFile (FileInput.ok name t)).getD []) := by
  have h1 : processFile (FileInput.ok name t) =
      some ((t.rows.filter fun r => keepClaim (getCell r ci)).map
        fun r => ⟨cleanClaim (getCell r ci), getCell r li, splitextBase name⟩) := by
    simp [processFile, processTable, hci, hli]
  refine ⟨h1, ?_, ?_⟩
  · intro rs hrs
    rw [h1] at hrs
    simp only [Option.some.injEq] at hrs
    subst hrs
    rw [List.map_map]
    rfl
  · intro row hrow hkeep
    rw [h1]
    simp only [Option.getD_some]
    exact List.mem_map_of_mem _ (List.mem_filter.mpr ⟨hrow, hkeep⟩)

theorem C10_label_passthrough_witness :
    ((normHeaders ["claim", "label"]).findIdx? (· = "claim") = some 0) ∧
    ((normHeaders ["claim", "label"]).findIdx? (· = "label") = some 1) ∧
    ((⟨cleanClaim (getCell [Val.vstr "hi", Val.vna] 0),
        getCell [Val.vstr "hi", Val.vna] 1, splitextBase "m.csv"⟩ : CRow) ∈
      (processFile
        (FileInput.ok "m.csv" ⟨["claim", "label"], [[Val.vstr "hi", Val.vna]]⟩)).getD
        []) ∧
    ((⟨"hi", Val.vna, "m"⟩ : CRow) ∈
      (processFile
        (FileInput.ok "m.csv" ⟨["claim", "label"], [[Val.vstr "hi", Val.vna]]⟩)).getD
        []) :=
  ⟨by decide, by decide,
    (C10_label_passthrough "m.csv" ⟨["claim", "label"], [[Val.vstr "hi", Val.vna]]⟩
      0 1 (by decide) (by decide)).2.2 [Val.vstr "hi", Val.vna] (by decide)
      (by decide),
    by decide⟩

/-- C7 counterexample: on the column list ["a", "b"] with role claim the
computed default index is 0, and the override "-1" is numeric but outside
the index range 0 to 1 of the list; the claim then requires the default
column "a" with a reported fallback, but the code feeds `int("-1")` to
Python list indexing, which counts from the end: `select_column` returns the
last column "b" with no fallback notice. -/
theorem C7_counterexample :
    pyParseInt "-1" = some (-1) ∧
    defaultIdx ["a", "b"] "claim" = 0 ∧
    selectColumn ["a", "b"] "claim" "-1" = ("b", false) ∧
    ("b" : String) ≠ "a" := by decide

/-- C7 amended: the computed default is as claimed — for role claim the
first column literally named claim, else 0; for the label role the first
column named label, else 1 when at least two columns exist, else 0.  A
non-numeric override, or a numeric override `i` outside the Python index
range `-n ≤ i < n`, falls back to the computed default with the fallback
reported; but a numeric override inside `-n ≤ i < 0` is honored Python-style
as the `(n + i)`-th column without any fallback, so only overrides outside
the bidirectional range are replaced by the default. -/
theorem C7_column_selection (cols : List String) (kind choice : String)
    (_hne : cols ≠ []) :
    (kind = "claim" → "claim" ∉ cols → defaultIdx cols kind = 0) ∧
    (kind = "claim" → "claim" ∈ cols →
      cols[defaultIdx cols kind]? = some "claim" ∧
      ∀ j < defaultIdx cols kind, cols[j]? ≠ some "claim") ∧
    (kind ≠ "claim" → "label" ∉ cols →
      defaultIdx cols kind = if cols.length > 1 then 1 else 0) ∧
    (kind ≠ "claim" → "label" ∈ cols →
      cols[defaultIdx cols kind]? = some "label" ∧
      ∀ j < defaultIdx cols kind, cols[j]? ≠ some "label") ∧
    (pyParseInt choice = none →
      selectColumn cols kind choice = (cols.getD (defaultIdx cols kind) "", true)) ∧
    (∀ i : Int, pyParseInt choice = some i →
      (i < -(cols.length : Int) ∨ (cols.length : Int) ≤ i) →
      selectColumn cols kind choice = (cols.getD (defaultIdx cols kind) "", true)) ∧
    (∀ i : Int, pyParseInt choice = some i → 0 ≤ i → i < (cols.length : Int) →
      selectColumn cols kind choice = (cols.getD i.toNat "", false)) ∧
    (∀ i : Int, pyParseInt choice = some i → -(cols.length : Int) ≤ i → i < 0 →
      selectColumn cols kind choice =
        (cols.getD (i + cols.length).toNat "", false)) := by
  have hclaim_none : "claim" ∉ cols → cols.findIdx? (· = "claim") = none := by
    intro hni
    rw [List.findIdx?_eq_none_iff]
    intro x hx
    simp only [decide_eq_false_iff_not]
    intro hxe
    exact hni (hxe ▸ hx)
  have hlabel_none : "label" ∉ cols → cols.findIdx? (· = "label") = none := by
    intro hni
    rw [List.findIdx?_eq_none_iff]
    intro x hx
    simp only [decide_eq_false_iff_not]
    intro hxe
    exact hni (hxe ▸ hx)
  have hfind : ∀ s : String, s ∈ cols → ∀ k, cols.findIdx? (· = s) = some k →
      cols[k]? = some s ∧ ∀ j < k, cols[j]? ≠ some s := by
    intro s hs k hk
    rw [List.findIdx?_eq_some_iff_getElem] at hk
    obtain ⟨hklt, hpk, hmin⟩ := hk
    constructor
    · rw [List.getElem?_eq_getElem hklt]
      simp only [decide_eq_true_eq] at hpk
      rw [hpk]
    · intro j hj
      have hjlt : j < cols.length := Nat.lt_trans hj hklt
      rw [List.getElem?_eq_getElem hjlt]
      have := hmin j hj
      simp only [decide_eq_true_eq] at this
      intro hcontra
      exact this (Option.some.inj hcontra)
  refine ⟨?_, ?_, ?_, ?_, ?_, ?_, ?_, ?_⟩
  · intro hk hni
    simp [defaultIdx, hk, hclaim_none hni]
  · intro hk hin
    have hsome : cols.findIdx? (· = "claim") = some (cols.findIdx (· = "claim")) :=
      List.findIdx?_eq_some_of_exists ⟨"claim", hin, by simp⟩
    have hd : defaultIdx cols kind = cols.findIdx (· = "claim") := by
      simp [defaultIdx, hk, hsome]
    rw [hd]
    exact hfind "claim" hin _ hsome
  · intro hk hni
    simp [defaultIdx, hk, hlabel_none hni]
  · intro hk hin
    have hsome : cols.findIdx? (· = "label") = some (cols.findIdx (· = "label")) :=
      List.findIdx?_eq_some_of_exists ⟨"label", hin, by simp⟩
    have hd : defaultIdx cols kind = cols.findIdx (· = "label") := by
      simp [defaultIdx, hk, hsome]
    rw [hd]
    exact hfind "label" hin _ hsome
  · intro hp
    simp [selectColumn, hp]
  · intro i hp hout
    have hnone : pyIndex cols i = none := by
      unfold pyIndex
      rcases hout with hlt | hge
      · rw [if_neg (by omega), if_neg (by omega)]
      · rw [if_pos (by omega)]
        exact List.getElem?_eq_none (by omega)
    simp [selectColumn, hp, hnone]
  · intro i hp h0 hlen
    have hlt : i.toNat < cols.length := by omega
    have hsome : pyIndex cols i = some cols[i.toNat] := by
      unfold pyIndex
      rw [if_pos h0]
      exact List.getElem?_eq_getElem hlt
    simp [selectColumn, hp, hsome, List.getElem?_eq_getElem hlt]
  · intro i hp hge hneg
    have hlt : (i + cols.length).toNat < cols.length := by omega
    have hsome : pyIndex cols i = some cols[(i + cols.length).toNat] := by
      unfold pyIndex
      rw [if_neg (by omega), if_pos (by omega)]
      exact List.getElem?_eq_getElem hlt
    simp [selectColumn, hp, hsome, List.getElem?_eq_getElem hlt]

theorem C7_column_selection_witness :
    (["text", "label", "claim"] : List String) ≠ [] ∧
    pyParseInt "zz" = none ∧
    selectColumn ["text", "label", "claim"] "claim" "zz" =
      (["text", "label", "claim"].getD (defaultIdx ["text", "label", "claim"] "claim") "",
        true) ∧
    ["text", "label", "claim"].getD (defaultIdx ["text", "label", "claim"] "claim") "" =
      "claim" :=
  ⟨by decide, by decide,
    (C7_column_selection ["text", "label", "claim"] "claim" "zz"
      (by decide)).2.2.2.2.1 (by decide),
    by decide⟩
